import Mathlib

/-!
Verification development for the gollm multi-provider LLM client.

The definitions below are a shallow embedding of the Go sources:
the uniform chunk/usage data model (`models/completion.go`), the four
provider adapters' streaming decode loops (`providers/anthropic/anthropic.go`,
`providers/openai/openai.go` which also holds the `ollama` package, and the
`googlegemini` provider), and the dispatcher / registry
(`client/client.go`).  Raw SSE / NDJSON lines are modelled as `List Char`
(Go works on `[]byte`); `encoding/json.Unmarshal` is modelled as an
oracle parameter `u : List Char → Option Json` since the JSON grammar
itself is a library external to this repository.  Go's `nil` errors and
pointers become `Option`; a Go `error` value is its message `String`.
-/

/-- `models.Usage`: token accounting.  Go `int` counts are modelled as `Int`. -/
structure Usage where
  promptTokens : Int
  completionTokens : Int
  totalTokens : Int
deriving DecidableEq, Repr

/-- The zero `models.Usage` value (`var accumulatedUsage models.Usage`). -/
def usage0 : Usage := ⟨0, 0, 0⟩

/-- `models.StreamingCompletionResponse`: one streamed chunk.
Defaults are the Go zero values of the struct fields. -/
structure StreamingCompletionResponse where
  text : String := ""
  done : Bool := false
  error : Option String := none
  usage : Option Usage := none
  provider : String := ""
deriving DecidableEq, Repr

/-- A chunk carrying only an error, `models.StreamingCompletionResponse{Error: err}`. -/
def mkErrChunk (e : String) : StreamingCompletionResponse := { error := some e }

/-- How the raw byte stream of a response body ends: normal EOF, or a read
error from `reader.ReadBytes`. -/
inductive ReadEnd where
  | eof
  | readErr (e : String)
deriving DecidableEq, Repr

/-- Loosely-typed JSON values, the shape `json.Unmarshal` produces into
`map[string]interface{}` / `interface{}`.  Numbers are `Int` (Go decodes
into `float64`; every count used by the decode loops is integral). -/
inductive Json where
  | null
  | bool (b : Bool)
  | num (n : Int)
  | str (s : String)
  | arr (elems : List Json)
  | obj (fields : List (String × Json))

/-- Key lookup in a decoded JSON object, i.e. `m["k"]` on `map[string]interface{}`. -/
def jlookup : List (String × Json) → String → Option Json
  | [], _ => none
  | (k, v) :: rest, key => if k == key then some v else jlookup rest key

/-- Go type assertion `.(string)`. -/
def Json.asStr : Json → Option String
  | .str s => some s
  | _ => none

/-- Go type assertion `.(float64)` (integral values). -/
def Json.asNum : Json → Option Int
  | .num n => some n
  | _ => none

/-- Go type assertion `.(bool)`. -/
def Json.asBool : Json → Option Bool
  | .bool b => some b
  | _ => none

/-- Go type assertion `.(map[string]interface{})`. -/
def Json.asObj : Json → Option (List (String × Json))
  | .obj fields => some fields
  | _ => none

/-- Go type assertion `.([]interface{})`. -/
def Json.asArr : Json → Option (List Json)
  | .arr elems => some elems
  | _ => none

/-- `m["k"]` on a value known to be an object: `none` when the value is not
an object or the key is absent (Go yields `nil`, failing any assertion). -/
def Json.get (j : Json) (k : String) : Option Json :=
  j.asObj.bind (fun fields => jlookup fields k)

/-- `m["k"].(float64)` with the `, _ :=` form: 0 when absent or wrongly typed. -/
def Json.getNumD (j : Json) (k : String) : Int :=
  ((j.get k).bind Json.asNum).getD 0

/-- `bytes.HasPrefix`. -/
def bytesStartsWith : List Char → List Char → Bool
  | _, [] => true
  | [], _ :: _ => false
  | c :: cs, p :: ps => c == p && bytesStartsWith cs ps

/-- Whitespace as trimmed by `bytes.TrimSpace`. -/
def isSpaceByte (c : Char) : Bool :=
  c == ' ' || c == '\t' || c == '\n' || c == '\r'

/-- `bytes.TrimSpace`: strip leading and trailing whitespace. -/
def bytesTrimSpace (s : List Char) : List Char :=
  ((s.dropWhile isSpaceByte).reverse.dropWhile isSpaceByte).reverse

/-- The SSE framing marker `"data: "`. -/
def dataMarker : List Char := 'd' :: 'a' :: 't' :: 'a' :: ':' :: ' ' :: []

/-! ### Anthropic streaming decode loop
(`AnthropicProvider.GenerateCompletionStream`, anthropic.go lines 142-230)

The loop is split into two layers that compose to the source loop:
`anthropicItems` performs the framing steps of each iteration (trim, skip
blank and non-`data: ` lines, unmarshal), and `anthropicLoopI` performs the
per-event `switch` on the resulting items. -/

/-- One framed unit reaching the Anthropic event `switch`: an
`json.Unmarshal` failure, or a decoded event payload. -/
inductive AnthItem where
  | parseFail
  | event (j : Json)

/-- The framing part of each Anthropic loop iteration: `line = TrimSpace(line)`,
skip empty lines, skip lines without the `data: ` marker, strip the marker and
unmarshal the payload via the oracle `u`. -/
def anthropicItems (u : List Char → Option Json) : List (List Char) → List AnthItem
  | [] => []
  | line :: rest =>
    let t := bytesTrimSpace line
    if t.isEmpty then anthropicItems u rest
    else if !bytesStartsWith t dataMarker then anthropicItems u rest
    else
      match u (t.drop 6) with
      | none => AnthItem.parseFail :: anthropicItems u rest
      | some j => AnthItem.event j :: anthropicItems u rest

/-- The effect of one Anthropic event on the loop state, one constructor per
arm of the `switch eventType`. -/
inductive AnthEffect where
  | setPrompt (n : Int)
  | emitText (s : String)
  | setCompletion (n : Int)
  | stop
deriving DecidableEq, Repr

/-- Classify one decoded Anthropic event exactly as the `switch` does:
`message_start` reads `message.usage.input_tokens`, `content_block_delta`
reads `delta.text`, `message_delta` reads `usage.output_tokens`,
`message_stop` terminates; any assertion failure or unknown type is a
`continue` (`none`). -/
def anthEventEffect (j : Json) : Option AnthEffect :=
  match (j.get "type").bind Json.asStr with
  | none => none
  | some t =>
    if t == "message_start" then
      (((j.get "message").bind (fun m => m.get "usage")).bind
        (fun us => us.get "input_tokens")).bind Json.asNum |>.map AnthEffect.setPrompt
    else if t == "content_block_delta" then
      ((j.get "delta").bind (fun d => d.get "text")).bind Json.asStr |>.map AnthEffect.emitText
    else if t == "message_delta" then
      ((j.get "usage").bind (fun us => us.get "output_tokens")).bind Json.asNum
        |>.map AnthEffect.setCompletion
    else if t == "message_stop" then
      some AnthEffect.stop
    else none

/-- The Anthropic event loop over framed items, threading the accumulated
text and usage.  `message_stop` emits the terminal chunk (whose `Text` is
the whole accumulated text) and returns; an unmarshal failure emits an
error chunk and continues; a read error at end of input emits one error
chunk; EOF emits nothing. -/
def anthropicLoopI : List AnthItem → ReadEnd → String → Usage → List StreamingCompletionResponse
  | [], ReadEnd.eof, _, _ => []
  | [], ReadEnd.readErr e, _, _ => [mkErrChunk e]
  | AnthItem.parseFail :: rest, endr, accT, accU =>
    mkErrChunk "invalid character in JSON payload" :: anthropicLoopI rest endr accT accU
  | AnthItem.event j :: rest, endr, accT, accU =>
    match anthEventEffect j with
    | none => anthropicLoopI rest endr accT accU
    | some (AnthEffect.setPrompt n) =>
      anthropicLoopI rest endr accT { accU with promptTokens := n }
    | some (AnthEffect.emitText s) =>
      { text := s } :: anthropicLoopI rest endr (accT ++ s) accU
    | some (AnthEffect.setCompletion n) =>
      anthropicLoopI rest endr accT ⟨accU.promptTokens, n, accU.promptTokens + n⟩
    | some AnthEffect.stop =>
      [{ text := accT, done := true, usage := some accU }]

/-- The whole Anthropic decode loop on raw body lines, from the initial
state (`accumulatedText = ""`, zero `accumulatedUsage`). -/
def anthropicDecode (u : List Char → Option Json) (lines : List (List Char))
    (endr : ReadEnd) : List StreamingCompletionResponse :=
  anthropicLoopI (anthropicItems u lines) endr "" usage0

/-! ### Ollama streaming decode loop
(`OllamaProvider.GenerateCompletionStream`, ollama.go: the NDJSON loop)

Each body line is unmarshaled directly (no `data: ` framing).  A line whose
payload lacks a string `response` field contributes nothing; otherwise a
chunk is emitted carrying the line's `response` text, the re-derived usage
(`prompt_eval_count` + `eval_count`, with total their sum) and the `done`
flag; a `done: true` line is terminal. -/

/-- `result["done"].(bool)` with the two-step `if ok { streamResponse.Done = done }`:
defaults to `false`. -/
def ollamaDoneOf (j : Json) : Bool :=
  ((j.get "done").bind Json.asBool).getD false

/-- The usage derived from one Ollama NDJSON object
(`prompt_eval_count`, `eval_count`, missing fields read as 0). -/
def ollamaUsageOf (j : Json) : Usage :=
  let p := j.getNumD "prompt_eval_count"
  let e := j.getNumD "eval_count"
  ⟨p, e, p + e⟩

/-- The Ollama decode loop over raw NDJSON lines. -/
def ollamaLoop (u : List Char → Option Json) :
    List (List Char) → ReadEnd → Usage → List StreamingCompletionResponse
  | [], ReadEnd.eof, _ => []
  | [], ReadEnd.readErr e, _ => [mkErrChunk e]
  | line :: rest, endr, accU =>
    match u line with
    | none => mkErrChunk "invalid character in JSON line" :: ollamaLoop u rest endr accU
    | some j =>
      match (j.get "response").bind Json.asStr with
      | none => ollamaLoop u rest endr accU
      | some s =>
        let accU2 := ollamaUsageOf j
        let d := ollamaDoneOf j
        { text := s, done := d, usage := some accU2 } ::
          (if d then [] else ollamaLoop u rest endr accU2)

/-- The whole Ollama decode loop from the zero accumulator. -/
def ollamaDecode (u : List Char → Option Json) (lines : List (List Char))
    (endr : ReadEnd) : List StreamingCompletionResponse :=
  ollamaLoop u lines endr usage0

/-- The `response` texts the Ollama backend delivered on the lines the loop
consumes: every parsed line's string `response` field in order, up to and
including the first `done: true` line. -/
def ollamaResponses (u : List Char → Option Json) : List (List Char) → List String
  | [] => []
  | line :: rest =>
    match u line with
    | none => ollamaResponses u rest
    | some j =>
      match (j.get "response").bind Json.asStr with
      | none => ollamaResponses u rest
      | some s => s :: (if ollamaDoneOf j then [] else ollamaResponses u rest)

/-! ### Google Gemini streaming decode loop
(`GoogleGeminiProvider.GenerateCompletionStream`)

The vendor iterator is modelled as the list of responses it yields followed
by how it ends (`iterator.Done` or an error). -/

/-- One element of `resp.Candidates[0].Content.Parts`: a `genai.Text` part
or a part of some other concrete type. -/
inductive GenaiPart where
  | text (s : String)
  | otherPart

/-- One candidate (only `Content.Parts` is read by the loop). -/
structure GenaiCandidate where
  parts : List GenaiPart

/-- One `iter.Next()` response (only `Candidates` is read by the loop). -/
structure GenaiResp where
  candidates : List GenaiCandidate

/-- How the vendor iterator ends after its yielded responses. -/
inductive IterEnd where
  | done
  | iterErr (e : String)

/-- The Gemini decode loop: iterator exhaustion emits `{Done: true}` (and
nothing else — in particular no usage); an iterator error emits one error
chunk; a response with no candidates or no parts is skipped; a first part
that is not `genai.Text` emits an error chunk and returns; otherwise the
part's text is emitted as a chunk. -/
def geminiLoop : List GenaiResp → IterEnd → List StreamingCompletionResponse
  | [], IterEnd.done => [{ done := true }]
  | [], IterEnd.iterErr e => [mkErrChunk e]
  | r :: rest, endr =>
    match r.candidates with
    | [] => geminiLoop rest endr
    | c :: _ =>
      match c.parts with
      | [] => geminiLoop rest endr
      | GenaiPart.text s :: _ => { text := s } :: geminiLoop rest endr
      | GenaiPart.otherPart :: _ => [mkErrChunk "unexpected content type in response"]

/-! ### OpenAI streaming decode loop
(`OpenAIProvider.GenerateCompletionStream`, openai.go lines 186-313)

Framing differs from Anthropic: the raw line is not trimmed before the
`data: ` check, and a payload equal to `[DONE]` (after `bytes.TrimSpace`)
terminates the stream before any unmarshal. -/

/-- One framed unit reaching the OpenAI payload analysis. -/
inductive OaiItem where
  | doneMark
  | parseFail
  | event (j : Json)

/-- The framing part of each OpenAI loop iteration: skip empty lines and
lines without the `data: ` marker, strip the marker, recognise the
`[DONE]` sentinel, else unmarshal via the oracle `u`. -/
def openaiItems (u : List Char → Option Json) : List (List Char) → List OaiItem
  | [] => []
  | line :: rest =>
    if line.isEmpty then openaiItems u rest
    else if !bytesStartsWith line dataMarker then openaiItems u rest
    else
      let data := line.drop 6
      if bytesTrimSpace data == ('[' :: 'D' :: 'O' :: 'N' :: 'E' :: ']' :: []) then
        OaiItem.doneMark :: openaiItems u rest
      else
        match u data with
        | none => OaiItem.parseFail :: openaiItems u rest
        | some j => OaiItem.event j :: openaiItems u rest

/-- Usage built from an OpenAI-schema `usage` object
(`prompt_tokens`, `completion_tokens`, `total_tokens`, missing read as 0). -/
def openaiUsageFromObj (us : List (String × Json)) : Usage :=
  ⟨((jlookup us "prompt_tokens").bind Json.asNum).getD 0,
   ((jlookup us "completion_tokens").bind Json.asNum).getD 0,
   ((jlookup us "total_tokens").bind Json.asNum).getD 0⟩

/-- Usage built from a Gemini-schema `usageMetadata` object as the OpenAI
loop does at openai.go lines 293-304 (`promptTokenCount`,
`candidatesTokenCount`, `totalTokenCount`). -/
def openaiUsageFromGeminiMeta (um : List (String × Json)) : Usage :=
  ⟨((jlookup um "promptTokenCount").bind Json.asNum).getD 0,
   ((jlookup um "candidatesTokenCount").bind Json.asNum).getD 0,
   ((jlookup um "totalTokenCount").bind Json.asNum).getD 0⟩

/-- The OpenAI event loop over framed items, threading `accumulatedUsage`.
`[DONE]` emits the terminal chunk with the accumulated usage; a payload
without a `choices` array (or with an empty one) is the final usage chunk
when it has a `usage` object, else skipped; a malformed choice or delta
emits an error chunk and continues; a delta with string `content` is
emitted, marked done when `finish_reason` is a non-empty string, and —
whenever the payload carries a `usageMetadata` object — the accumulator is
overwritten from those Gemini-schema fields and attached to the chunk. -/
def openaiLoopI : List OaiItem → ReadEnd → Usage → List StreamingCompletionResponse
  | [], ReadEnd.eof, _ => []
  | [], ReadEnd.readErr e, _ => [mkErrChunk e]
  | OaiItem.doneMark :: _, _, accU => [{ done := true, usage := some accU }]
  | OaiItem.parseFail :: rest, endr, accU =>
    mkErrChunk "error unmarshaling JSON" :: openaiLoopI rest endr accU
  | OaiItem.event j :: rest, endr, accU =>
    match (j.get "choices").bind Json.asArr with
    | none =>
      match (j.get "usage").bind Json.asObj with
      | some us => [{ done := true, usage := some (openaiUsageFromObj us) }]
      | none => openaiLoopI rest endr accU
    | some [] =>
      match (j.get "usage").bind Json.asObj with
      | some us => [{ done := true, usage := some (openaiUsageFromObj us) }]
      | none => openaiLoopI rest endr accU
    | some (c0 :: _) =>
      match c0.asObj with
      | none => mkErrChunk "invalid choice format" :: openaiLoopI rest endr accU
      | some choice =>
        match (jlookup choice "delta").bind Json.asObj with
        | none => mkErrChunk "invalid delta format" :: openaiLoopI rest endr accU
        | some delta =>
          match (jlookup delta "content").bind Json.asStr with
          | none => openaiLoopI rest endr accU
          | some content =>
            let isDone :=
              match (jlookup choice "finish_reason").bind Json.asStr with
              | some fr => fr != ""
              | none => false
            match (j.get "usageMetadata").bind Json.asObj with
            | some um =>
              let accU2 := openaiUsageFromGeminiMeta um
              { text := content, done := isDone, usage := some accU2 } ::
                (if isDone then [] else openaiLoopI rest endr accU2)
            | none =>
              { text := content, done := isDone,
                usage := if isDone then some accU else none } ::
                (if isDone then [] else openaiLoopI rest endr accU)

/-- The whole OpenAI decode loop on raw body lines, from the zero accumulator. -/
def openaiDecode (u : List Char → Option Json) (lines : List (List Char))
    (endr : ReadEnd) : List StreamingCompletionResponse :=
  openaiLoopI (openaiItems u lines) endr usage0

/-! ### Synchronous stream opening and the HTTP status gate
(`OpenAIProvider.GenerateCompletionStream` lines 174-182,
`AnthropicProvider.GenerateCompletionStream` lines 130-138)

Before the decode goroutine starts, a non-`200` status makes the call
itself return an error; only a `200` response reaches the decode loop. -/

/-- The part of an HTTP response the streaming calls inspect: the status
code and the body (as lines plus how the body read ends). -/
structure HttpResponse where
  statusCode : Nat
  bodyLines : List (List Char)
  bodyEnd : ReadEnd

/-- `OpenAIProvider.GenerateCompletionStream` after the transport call:
fail synchronously on a non-200 status, otherwise run the decode loop. -/
def openaiGenerateCompletionStream (u : List Char → Option Json) (resp : HttpResponse) :
    Except String (List StreamingCompletionResponse) :=
  if resp.statusCode ≠ 200 then
    Except.error ("API request failed with status code: " ++ toString resp.statusCode)
  else
    Except.ok (openaiDecode u resp.bodyLines resp.bodyEnd)

/-- `AnthropicProvider.GenerateCompletionStream` after the transport call. -/
def anthropicGenerateCompletionStream (u : List Char → Option Json) (resp : HttpResponse) :
    Except String (List StreamingCompletionResponse) :=
  if resp.statusCode ≠ 200 then
    Except.error ("API request failed with status code: " ++ toString resp.statusCode)
  else
    Except.ok (anthropicDecode u resp.bodyLines resp.bodyEnd)

/-! ### Request construction and the unguarded last-message access
(`OllamaProvider.GenerateCompletion` / `GenerateCompletionStream`,
`GoogleGeminiProvider.GenerateCompletion` / `GenerateCompletionStream`)

These four operations read `input.Messages[len(input.Messages)-1].Content`
with no emptiness guard while building the backend request, before any
network call.  The partiality of that index is made explicit with
`Option`: `none` models the out-of-range panic. -/

/-- `models.ChatMessage`. -/
structure ChatMessage where
  role : String
  content : String
deriving DecidableEq, Repr

/-- `models.CompletionInput` (the fields the modelled code reads; the
`float32` temperature is outside the embedding). -/
structure CompletionInput where
  model : String := ""
  messages : List ChatMessage := []
  maxTokens : Int := 0
  stream : Bool := false

/-- `input.Messages[len(input.Messages)-1]`: `none` exactly when the index
is out of range, i.e. when `Messages` is empty (Go panics there). -/
def lastMessage (msgs : List ChatMessage) : Option ChatMessage :=
  msgs.get? (msgs.length - 1)

/-- The Ollama request body for `/api/generate`. -/
structure OllamaRequest where
  model : String
  prompt : String
  stream : Bool
  numPredict : Option Int
deriving DecidableEq, Repr

/-- Request built by `OllamaProvider.GenerateCompletion` (lines 374-387):
prompt is the last message's content, `stream: false`, `num_predict` only
when `MaxTokens > 0`. -/
def ollamaGenRequest (modelName : String) (input : CompletionInput) : Option OllamaRequest :=
  (lastMessage input.messages).map fun m =>
    ⟨modelName, m.content, false, if input.maxTokens > 0 then some input.maxTokens else none⟩

/-- Request built by `OllamaProvider.GenerateCompletionStream` (lines
436-449): as above with `stream: true`. -/
def ollamaStreamRequest (modelName : String) (input : CompletionInput) : Option OllamaRequest :=
  (lastMessage input.messages).map fun m =>
    ⟨modelName, m.content, true, if input.maxTokens > 0 then some input.maxTokens else none⟩

/-- Prompt built by `GoogleGeminiProvider.GenerateCompletion` (line 48):
`genai.Text(input.Messages[len(input.Messages)-1].Content)`. -/
def geminiGenPrompt (input : CompletionInput) : Option String :=
  (lastMessage input.messages).map (fun m => m.content)

/-- Prompt built by `GoogleGeminiProvider.GenerateCompletionStream` (line 91). -/
def geminiStreamPrompt (input : CompletionInput) : Option String :=
  (lastMessage input.messages).map (fun m => m.content)

/-! ### Dispatcher and registry (`client/client.go`)

The registry is the `providers` map plus `defaultProvider`, guarded by the
single `sync.RWMutex` `mu`.  The mutex is modelled by a `muHeld` flag, and
`Res` adds a `deadlock` outcome: Go's `sync.Mutex.Lock` on a mutex the
same goroutine already holds blocks forever, which the shallow embedding
records as `Res.deadlock`. -/

/-- One constructed provider adapter (tag plus its configuration value). -/
inductive ProviderA where
  | openai (apiKey : String)
  | anthropic (apiKey : String)
  | googlegemini
  | ollama (baseURL : String)
deriving DecidableEq, Repr

/-- Outcome of a client operation: a value, a returned error, or a
deadlock (the operation never returns). -/
inductive Res (α : Type) where
  | ok (a : α)
  | err (e : String)
  | deadlock
deriving DecidableEq, Repr

/-- The `Client` state: the `providers` map (as an association list in
insertion order), `defaultProvider`, and whether `mu` is currently held. -/
structure ClientState where
  providers : List (String × ProviderA) := []
  defaultProvider : String := ""
  muHeld : Bool := false
deriving DecidableEq, Repr

/-- `c.providers[name]` lookup. -/
def lookupProvider : List (String × ProviderA) → String → Option ProviderA
  | [], _ => none
  | (k, p) :: rest, name => if k == name then some p else lookupProvider rest name

/-- The process environment; `os.Getenv` returns `""` for unset keys. -/
def getenv : List (String × String) → String → String
  | [], _ => ""
  | (k, v) :: rest, key => if k == key then v else getenv rest key

/-- `Client.parseProviderModel`: `strings.SplitN(providerModel, "/", 2)`
splits at the first separator; fewer than 2 parts is an error. -/
def splitFirst (sep : Char) : List Char → Option (List Char × List Char)
  | [] => none
  | c :: rest =>
    if c == sep then some ([], rest)
    else (splitFirst sep rest).map (fun pr => (c :: pr.1, pr.2))

/-- `Client.parseProviderModel` (client.go lines 335-341). -/
def parseProviderModel (providerModel : String) : Except String (String × String) :=
  match splitFirst '/' providerModel.toList with
  | some (a, b) => Except.ok (String.mk a, String.mk b)
  | none => Except.error "invalid provider/model format"

/-- `Client.setDefaultProviderIfEmpty` (client.go lines 137-143): takes
`c.mu.Lock()` — deadlocking if the caller already holds `mu` — then sets
the default if empty and unlocks. -/
def setDefaultProviderIfEmpty (st : ClientState) (name : String) : Res Unit × ClientState :=
  if st.muHeld then (Res.deadlock, st)
  else
    let st1 := { st with muHeld := true }
    let st2 := if st1.defaultProvider == "" then { st1 with defaultProvider := name } else st1
    (Res.ok (), { st2 with muHeld := false })

/-- The `switch providerName` of `Client.initializeProvider` (lines
355-382): construct the named provider from the environment, or fail with
the missing-credential error; unknown names are `ErrUnsupportedProvider`. -/
def constructProviderSwitch (env : List (String × String)) (name : String) : Res ProviderA :=
  if name == "openai" then
    if getenv env "OPENAI_API_KEY" != "" then Res.ok (ProviderA.openai (getenv env "OPENAI_API_KEY"))
    else Res.err "failed to initialize provider openai: OPENAI_API_KEY not set"
  else if name == "anthropic" then
    if getenv env "ANTHROPIC_API_KEY" != "" then
      Res.ok (ProviderA.anthropic (getenv env "ANTHROPIC_API_KEY"))
    else Res.err "failed to initialize provider anthropic: ANTHROPIC_API_KEY not set"
  else if name == "googlegemini" then
    if getenv env "GEMINI_API_KEY" != "" then Res.ok ProviderA.googlegemini
    else Res.err "failed to initialize provider googlegemini: GEMINI_API_KEY not set"
  else if name == "ollama" then
    if getenv env "OLLAMA_BASE_URL" != "" then
      Res.ok (ProviderA.ollama (getenv env "OLLAMA_BASE_URL"))
    else Res.err "failed to initialize provider ollama: OLLAMA_BASE_URL not set"
  else Res.err "unsupported provider"

/-- `Client.initializeProvider` (client.go lines 343-393): takes
`c.mu.Lock()` for the whole body (`defer c.mu.Unlock()`), returns a
registered provider directly, otherwise constructs one, inserts it, and
calls `setDefaultProviderIfEmpty` — which locks `mu` again while it is
still held, so the lazy-construction path deadlocks. -/
def initializeProvider (st : ClientState) (env : List (String × String)) (name : String) :
    Res ProviderA × ClientState :=
  if st.muHeld then (Res.deadlock, st)
  else
    let st1 := { st with muHeld := true }
    match lookupProvider st1.providers name with
    | some p => (Res.ok p, { st1 with muHeld := false })
    | none =>
      match constructProviderSwitch env name with
      | Res.err e => (Res.err e, { st1 with muHeld := false })
      | Res.deadlock => (Res.deadlock, st1)
      | Res.ok p =>
        let st2 := { st1 with providers := st1.providers ++ [(name, p)] }
        match setDefaultProviderIfEmpty st2 name with
        | (Res.deadlock, st3) => (Res.deadlock, st3)
        | (_, st3) => (Res.ok p, { st3 with muHeld := false })

/-- `Client.GenerateCompletion` (client.go lines 200-220), parametric in
the adapter behaviour `gen`: parse the identifier, resolve the provider,
delegate. -/
def generateCompletion
    (gen : ProviderA → String → CompletionInput → Except String String)
    (st : ClientState) (env : List (String × String)) (input : CompletionInput) :
    Res String × ClientState :=
  match parseProviderModel input.model with
  | Except.error e => (Res.err ("failed to parse provider/model: " ++ e), st)
  | Except.ok (providerName, modelName) =>
    match initializeProvider st env providerName with
    | (Res.deadlock, st2) => (Res.deadlock, st2)
    | (Res.err e, st2) => (Res.err e, st2)
    | (Res.ok p, st2) =>
      match gen p modelName input with
      | Except.error e => (Res.err e, st2)
      | Except.ok r => (Res.ok r, st2)

/-- The dispatcher's forwarding goroutine in `Client.GenerateCompletionStream`
(client.go lines 248-255): `for resp := range stream { debugStream <- resp }`
— each received chunk is sent on unchanged, in order. -/
def debugForward : List StreamingCompletionResponse → List StreamingCompletionResponse
  | [] => []
  | c :: rest => c :: debugForward rest

/-- `Client.GenerateCompletionStream` (client.go lines 223-258), parametric
in the adapter behaviour `streamFn`: parse, resolve, delegate, and hand the
adapter's chunk sequence back through the forwarding goroutine. -/
def generateCompletionStream
    (streamFn : ProviderA → String → CompletionInput →
      Except String (List StreamingCompletionResponse))
    (st : ClientState) (env : List (String × String)) (input : CompletionInput) :
    Res (List StreamingCompletionResponse) × ClientState :=
  match parseProviderModel input.model with
  | Except.error e => (Res.err e, st)
  | Except.ok (providerName, modelName) =>
    match initializeProvider st env providerName with
    | (Res.deadlock, st2) => (Res.deadlock, st2)
    | (Res.err e, st2) => (Res.err e, st2)
    | (Res.ok p, st2) =>
      match streamFn p modelName input with
      | Except.error e => (Res.err ("failed to generate streaming completion: " ++ e), st2)
      | Except.ok stream => (Res.ok (debugForward stream), st2)

/-! ### Closing all providers (`Client.Close`, client.go lines 153-192)

Each registered entry gets one close goroutine (nil entries are skipped);
every non-nil close error is sent on `errChan` and the last one received
is returned.  The goroutines are sequentialized in map-iteration order:
the collected-error order is that same entry order. -/

/-- An adapter as `Close` sees it: the instrumented outcome of its
`Close()` call (`none` = success). -/
structure CloseableAdapter where
  closeErr : Option String
deriving DecidableEq, Repr

/-- The error a failing close contributes
(`fmt.Errorf("error closing %s provider: %w", name, err)`). -/
def closeErrMsg (name : String) (a : CloseableAdapter) : Option String :=
  a.closeErr.map (fun e => "error closing " ++ name ++ " provider: " ++ e)

/-- `Client.Close` over the registry entries: returns the names whose
adapters had `Close` invoked (in order) and the last non-nil close error
(`nil` when every close succeeds). -/
def closeAll : List (String × Option CloseableAdapter) → List String × Option String
  | [] => ([], none)
  | (_, none) :: rest => closeAll rest
  | (name, some a) :: rest =>
    let r := closeAll rest
    (name :: r.1, match r.2 with
      | some e => some e
      | none => closeErrMsg name a)

/-! ### Derived observations used by the statements below -/

/-- Concatenation of a list of strings in order. -/
def strConcat : List String → String
  | [] => ""
  | s :: rest => s ++ strConcat rest

/-- Concatenation of the `Text` fields of a chunk sequence, in emission order. -/
def chunkTextJoin : List StreamingCompletionResponse → String
  | [] => ""
  | c :: rest => c.text ++ chunkTextJoin rest

/-- Concatenation of the `Text` fields of the non-terminal chunks only. -/
def nonTerminalTextJoin : List StreamingCompletionResponse → String
  | [] => ""
  | c :: rest =>
    if c.done then nonTerminalTextJoin rest else c.text ++ nonTerminalTextJoin rest

/-- Every chunk before the last has the terminal flag clear (so at most one
chunk is terminal and nothing follows it). -/
def doneLastB (cs : List StreamingCompletionResponse) : Bool :=
  cs.dropLast.all (fun c => !c.done)

/-- Every chunk before the last carries no error (the chunk-carrying-error-
is-last half of the stream invariant). -/
def errorsLastB (cs : List StreamingCompletionResponse) : Bool :=
  cs.dropLast.all (fun c => c.error.isNone)

/-- The framed items strictly before the first `message_stop` event, or
`none` when the stream never reaches one. -/
def anthPreStop : List AnthItem → Option (List AnthItem)
  | [] => none
  | AnthItem.parseFail :: rest => (anthPreStop rest).map (fun l => AnthItem.parseFail :: l)
  | AnthItem.event j :: rest =>
    match anthEventEffect j with
    | some AnthEffect.stop => some []
    | _ => (anthPreStop rest).map (fun l => AnthItem.event j :: l)

/-- The text the Anthropic backend delivered: the `content_block_delta`
texts of the framed items in order, up to the first `message_stop`. -/
def anthDeltaText : List AnthItem → String
  | [] => ""
  | AnthItem.parseFail :: rest => anthDeltaText rest
  | AnthItem.event j :: rest =>
    match anthEventEffect j with
    | some (AnthEffect.emitText s) => s ++ anthDeltaText rest
    | some AnthEffect.stop => ""
    | _ => anthDeltaText rest

/-- The classified effects of a framed item list (unmarshal failures and
skipped events contribute nothing). -/
def anthEffects (items : List AnthItem) : List AnthEffect :=
  items.filterMap (fun i =>
    match i with
    | AnthItem.parseFail => none
    | AnthItem.event j => anthEventEffect j)

/-- One Anthropic effect applied to the usage accumulator, exactly as the
`switch` arms mutate `accumulatedUsage`. -/
def effStep (u : Usage) : AnthEffect → Usage
  | AnthEffect.setPrompt n => { u with promptTokens := n }
  | AnthEffect.setCompletion n => ⟨u.promptTokens, n, u.promptTokens + n⟩
  | _ => u

/-- The usage accumulator after a list of effects. -/
def effFold : List AnthEffect → Usage → Usage
  | [], u => u
  | e :: rest, u => effFold rest (effStep u e)

/-- No `message_start` usage update occurs in the effect list. -/
def noSetPrompt (es : List AnthEffect) : Bool :=
  es.all fun e =>
    match e with
    | AnthEffect.setPrompt _ => false
    | _ => true

/-- Some `message_delta` usage update occurs with no `message_start` usage
update after it (the shape of every well-formed Anthropic stream, where
`input_tokens` arrives in `message_start` and `output_tokens` in a later
`message_delta`). -/
def endsWithGoodUsage : List AnthEffect → Bool
  | [] => false
  | AnthEffect.setCompletion _ :: rest => endsWithGoodUsage rest || noSetPrompt rest
  | _ :: rest => endsWithGoodUsage rest

/-- The usage's total equals prompt plus completion. -/
def usageOK (u : Usage) : Bool :=
  u.totalTokens == u.promptTokens + u.completionTokens

/-- No response the Gemini iterator yields has a first part of a
non-`genai.Text` type (so the loop never takes its error arm). -/
def geminiClean (rs : List GenaiResp) : Bool :=
  rs.all fun r =>
    match r.candidates with
    | [] => true
    | c :: _ =>
      match c.parts with
      | [] => true
      | GenaiPart.text _ :: _ => true
      | GenaiPart.otherPart :: _ => false

/-! ### Concrete streams used by the counterexamples and witnesses -/

/-- A `content_block_delta` event carrying the text `"Hi"`. -/
def jDeltaHi : Json :=
  Json.obj [("type", Json.str "content_block_delta"),
            ("delta", Json.obj [("text", Json.str "Hi")])]

/-- A `message_stop` event. -/
def jStop : Json := Json.obj [("type", Json.str "message_stop")]

/-- A `message_start` event carrying `usage.input_tokens = 3`. -/
def jStart3 : Json :=
  Json.obj [("type", Json.str "message_start"),
            ("message", Json.obj [("usage", Json.obj [("input_tokens", Json.num 3)])])]

/-- A `message_delta` event carrying `usage.output_tokens = 2`. -/
def jDelta2 : Json :=
  Json.obj [("type", Json.str "message_delta"),
            ("usage", Json.obj [("output_tokens", Json.num 2)])]

/-- Unmarshal oracle for the concrete Anthropic streams: `!` is malformed;
`{d}`, `{s}`, `{m}`, `{u}` decode to the events above. -/
def uAnth (s : List Char) : Option Json :=
  if s == "!".toList then none
  else if s == "{d}".toList then some jDeltaHi
  else if s == "{s}".toList then some jStop
  else if s == "{m}".toList then some jStart3
  else if s == "{u}".toList then some jDelta2
  else none

/-- Body whose first payload is malformed and whose second is a text delta. -/
def linesBadThenText : List (List Char) :=
  ["data: !\n".toList, "data: {d}\n".toList]

/-- Body delivering one text delta then `message_stop`. -/
def linesHiStop : List (List Char) :=
  ["data: {d}\n".toList, "data: {s}\n".toList]

/-- Body delivering usage-only events around one text delta, then stop:
`message_start(3)`, delta `"Hi"`, `message_delta(2)`, `message_stop`. -/
def linesFull : List (List Char) :=
  ["data: {m}\n".toList, "data: {d}\n".toList, "data: {u}\n".toList, "data: {s}\n".toList]

/-- An OpenAI SSE payload whose `choices[0].delta.content` is `"hi"` and
which also carries a Gemini-schema `usageMetadata` object. -/
def jOaiGeminiMeta : Json :=
  Json.obj [("choices", Json.arr [Json.obj [("delta", Json.obj [("content", Json.str "hi")])]]),
            ("usageMetadata", Json.obj [("promptTokenCount", Json.num 7),
                                        ("candidatesTokenCount", Json.num 5),
                                        ("totalTokenCount", Json.num 12)])]

/-- Unmarshal oracle for the concrete OpenAI stream (the payload keeps its
trailing newline: the OpenAI loop does not trim before unmarshaling). -/
def uOai (s : List Char) : Option Json :=
  if s == "{g}\n".toList then some jOaiGeminiMeta else none

/-- OpenAI body: the event above, then the `[DONE]` sentinel. -/
def linesOaiGemini : List (List Char) :=
  ["data: {g}\n".toList, "data: [DONE]\n".toList]

/-- A Gemini iterator yielding one `genai.Text "Hi"` response. -/
def geminiRespHi : GenaiResp := ⟨[⟨[GenaiPart.text "Hi"]⟩]⟩

/-- Environment with only the Ollama base URL configured. -/
def envOllama : List (String × String) := [("OLLAMA_BASE_URL", "http://localhost:11434")]

/-- The framed items of `linesFull` before its `message_stop`. -/
def preFull : List AnthItem :=
  [AnthItem.event jStart3, AnthItem.event jDeltaHi, AnthItem.event jDelta2]

/-- Body delivering the usage events out of order: `message_delta(2)` first,
then `message_start(3)`, then `message_stop`. -/
def linesDeltaFirst : List (List Char) :=
  ["data: {u}\n".toList, "data: {m}\n".toList, "data: {s}\n".toList]

/-- Whether the Ollama loop reaches a terminating line (a parsed object with
a string `response` field and `done: true`) before the end of input. -/
def ollamaStops (u : List Char → Option Json) : List (List Char) → Bool
  | [] => false
  | line :: rest =>
    match u line with
    | none => ollamaStops u rest
    | some j =>
      match (j.get "response").bind Json.asStr with
      | none => ollamaStops u rest
      | some _ => if ollamaDoneOf j then true else ollamaStops u rest

/-! ### Helper lemmas -/

theorem debugForward_id (cs : List StreamingCompletionResponse) : debugForward cs = cs := by
  induction cs with
  | nil => rfl
  | cons c rest ih => simp [debugForward, ih]

theorem doneLastB_cons (c : StreamingCompletionResponse) (l : List StreamingCompletionResponse)
    (hc : c.done = false) (hl : doneLastB l = true) : doneLastB (c :: l) = true := by
  cases l with
  | nil => simp [doneLastB]
  | cons x xs =>
    simp only [doneLastB, List.dropLast_cons₂, List.all_cons, Bool.and_eq_true] at *
    exact ⟨by simp [hc], hl⟩

theorem lastMessage_isSome (msgs : List ChatMessage) :
    (lastMessage msgs).isSome = !msgs.isEmpty := by
  cases msgs with
  | nil => rfl
  | cons m rest =>
    simp only [lastMessage, List.length_cons, Nat.add_sub_cancel, List.isEmpty_cons]
    have h : rest.length < (m :: rest).length := by simp
    simp [List.get?_eq_get h]

theorem initializeProvider_hit (st : ClientState) (env : List (String × String)) (name : String)
    (p : ProviderA) (hmu : st.muHeld = false)
    (hp : lookupProvider st.providers name = some p) :
    initializeProvider st env name = (Res.ok p, st) := by
  cases st with
  | mk providers defaultProvider muHeld =>
    simp only at hmu hp
    subst hmu
    simp [initializeProvider, hp]

theorem splitFirst_sep (pre post : List Char) (hpre : (pre.all fun c => c != '/') = true) :
    splitFirst '/' (pre ++ '/' :: post) = some (pre, post) := by
  induction pre with
  | nil => simp [splitFirst]
  | cons c cs ih =>
    simp only [List.all_cons, Bool.and_eq_true] at hpre
    have hc : (c == '/') = false := by
      cases h : c == '/' <;> simp_all
    simp [splitFirst, hc, ih hpre.2]

theorem splitFirst_none (s : List Char) (hs : (s.all fun c => c != '/') = true) :
    splitFirst '/' s = none := by
  induction s with
  | nil => rfl
  | cons c cs ih =>
    simp only [List.all_cons, Bool.and_eq_true] at hs
    have hc : (c == '/') = false := by
      cases h : c == '/' <;> simp_all
    simp [splitFirst, hc, ih hs.2]

theorem anthLoopI_doneLast (items : List AnthItem) (endr : ReadEnd) (accT : String) (accU : Usage) :
    doneLastB (anthropicLoopI items endr accT accU) = true := by
  induction items generalizing accT accU with
  | nil =>
    cases endr with
    | eof => simp [anthropicLoopI, doneLastB]
    | readErr e => simp [anthropicLoopI, doneLastB]
  | cons i rest ih =>
    cases i with
    | parseFail =>
      simp only [anthropicLoopI]
      exact doneLastB_cons _ _ rfl (ih _ _)
    | event j =>
      simp only [anthropicLoopI]
      cases h : anthEventEffect j with
      | none => exact ih _ _
      | some eff =>
        cases eff with
        | setPrompt n => exact ih _ _
        | emitText s => exact doneLastB_cons _ _ rfl (ih _ _)
        | setCompletion n => exact ih _ _
        | stop => simp [doneLastB]

theorem ollamaLoop_doneLast (u : List Char → Option Json) (lines : List (List Char))
    (endr : ReadEnd) (accU : Usage) :
    doneLastB (ollamaLoop u lines endr accU) = true := by
  induction lines generalizing accU with
  | nil =>
    cases endr with
    | eof => simp [ollamaLoop, doneLastB]
    | readErr e => simp [ollamaLoop, doneLastB]
  | cons line rest ih =>
    simp only [ollamaLoop]
    cases hj : u line with
    | none =>
      simp only [hj]
      exact doneLastB_cons _ _ rfl (ih accU)
    | some j =>
      simp only [hj]
      cases hr : (j.get "response").bind Json.asStr with
      | none =>
        simp only [hr]
        exact ih accU
      | some s =>
        simp only [hr]
        cases hd : ollamaDoneOf j with
        | false =>
          simp only [hd, if_neg Bool.false_ne_true]
          exact doneLastB_cons _ _ rfl (ih (ollamaUsageOf j))
        | true => simp [hd, doneLastB]

theorem anthLoopI_readErr_last (items : List AnthItem) (e : String) (accT : String) (accU : Usage)
    (h : anthPreStop items = none) :
    ∃ cs, anthropicLoopI items (ReadEnd.readErr e) accT accU = cs ++ [mkErrChunk e] := by
  induction items generalizing accT accU with
  | nil => exact ⟨[], rfl⟩
  | cons i rest ih =>
    cases i with
    | parseFail =>
      simp only [anthPreStop, Option.map_eq_none'] at h
      obtain ⟨cs, hcs⟩ := ih accT accU h
      refine ⟨mkErrChunk "invalid character in JSON payload" :: cs, ?_⟩
      simp [anthropicLoopI, hcs]
    | event j =>
      simp only [anthPreStop] at h
      cases heff : anthEventEffect j with
      | none =>
        simp only [heff, Option.map_eq_none'] at h
        obtain ⟨cs, hcs⟩ := ih accT accU h
        exact ⟨cs, by simp [anthropicLoopI, heff, hcs]⟩
      | some eff =>
        cases eff with
        | setPrompt n =>
          simp only [heff, Option.map_eq_none'] at h
          obtain ⟨cs, hcs⟩ := ih accT { accU with promptTokens := n } h
          exact ⟨cs, by simp [anthropicLoopI, heff, hcs]⟩
        | emitText s =>
          simp only [heff, Option.map_eq_none'] at h
          obtain ⟨cs, hcs⟩ := ih (accT ++ s) accU h
          refine ⟨{ text := s } :: cs, ?_⟩
          simp [anthropicLoopI, heff, hcs]
        | setCompletion n =>
          simp only [heff, Option.map_eq_none'] at h
          obtain ⟨cs, hcs⟩ := ih accT ⟨accU.promptTokens, n, accU.promptTokens + n⟩ h
          exact ⟨cs, by simp [anthropicLoopI, heff, hcs]⟩
        | stop => simp [heff] at h

theorem anthLoopI_stop_shape (items : List AnthItem) (endr : ReadEnd) (accT : String) (accU : Usage)
    (pre : List AnthItem) (h : anthPreStop items = some pre) :
    ∃ cs, anthropicLoopI items endr accT accU =
      cs ++ [{ text := accT ++ anthDeltaText pre, done := true,
               usage := some (effFold (anthEffects pre) accU) }] := by
  induction items generalizing accT accU pre with
  | nil => simp [anthPreStop] at h
  | cons i rest ih =>
    cases i with
    | parseFail =>
      simp only [anthPreStop, Option.map_eq_some'] at h
      obtain ⟨pre1, hpre1, rfl⟩ := h
      obtain ⟨cs, hcs⟩ := ih accT accU pre1 hpre1
      refine ⟨mkErrChunk "invalid character in JSON payload" :: cs, ?_⟩
      simp [anthropicLoopI, hcs, anthDeltaText, anthEffects]
    | event j =>
      simp only [anthPreStop] at h
      cases heff : anthEventEffect j with
      | none =>
        simp only [heff, Option.map_eq_some'] at h
        obtain ⟨pre1, hpre1, rfl⟩ := h
        obtain ⟨cs, hcs⟩ := ih accT accU pre1 hpre1
        refine ⟨cs, ?_⟩
        simp [anthropicLoopI, heff, hcs, anthDeltaText, anthEffects]
      | some eff =>
        cases eff with
        | setPrompt n =>
          simp only [heff, Option.map_eq_some'] at h
          obtain ⟨pre1, hpre1, rfl⟩ := h
          obtain ⟨cs, hcs⟩ := ih accT { accU with promptTokens := n } pre1 hpre1
          refine ⟨cs, ?_⟩
          simp [anthropicLoopI, heff, hcs, anthDeltaText, anthEffects, effFold, effStep]
        | emitText s =>
          simp only [heff, Option.map_eq_some'] at h
          obtain ⟨pre1, hpre1, rfl⟩ := h
          obtain ⟨cs, hcs⟩ := ih (accT ++ s) accU pre1 hpre1
          refine ⟨{ text := s } :: cs, ?_⟩
          simp [anthropicLoopI, heff, hcs, anthDeltaText, anthEffects, effFold, effStep,
            String.append_assoc]
        | setCompletion n =>
          simp only [heff, Option.map_eq_some'] at h
          obtain ⟨pre1, hpre1, rfl⟩ := h
          obtain ⟨cs, hcs⟩ := ih accT ⟨accU.promptTokens, n, accU.promptTokens + n⟩ pre1 hpre1
          refine ⟨cs, ?_⟩
          simp [anthropicLoopI, heff, hcs, anthDeltaText, anthEffects, effFold, effStep]
        | stop =>
          simp only [heff, Option.some.injEq] at h
          subst h
          refine ⟨[], ?_⟩
          simp [anthropicLoopI, heff, anthDeltaText, anthEffects, effFold,
            String.append_empty]

theorem usageOK_effStep (u : Usage) (e : AnthEffect)
    (hu : usageOK u = true) (he : (match e with | AnthEffect.setPrompt _ => false | _ => true) = true) :
    usageOK (effStep u e) = true := by
  cases e with
  | setPrompt n => simp at he
  | emitText s => exact hu
  | setCompletion n => simp [effStep, usageOK]
  | stop => exact hu

theorem usageOK_effFold_noSetPrompt :
    ∀ (es : List AnthEffect) (u : Usage), noSetPrompt es = true → usageOK u = true →
      usageOK (effFold es u) = true := by
  intro es
  induction es with
  | nil => exact fun u _ hu => hu
  | cons e rest ih =>
    intro u hes hu
    simp only [noSetPrompt, List.all_cons, Bool.and_eq_true] at hes
    exact ih (effStep u e) (by simpa [noSetPrompt] using hes.2) (usageOK_effStep u e hu hes.1)

theorem usageOK_effFold_good :
    ∀ (es : List AnthEffect) (u : Usage), endsWithGoodUsage es = true →
      usageOK (effFold es u) = true := by
  intro es
  induction es with
  | nil => intro u h; simp [endsWithGoodUsage] at h
  | cons e rest ih =>
    intro u h
    cases e with
    | setPrompt n => exact ih _ h
    | emitText s => exact ih _ h
    | stop => exact ih _ h
    | setCompletion n =>
      simp only [endsWithGoodUsage, Bool.or_eq_true] at h
      cases h with
      | inl hrec => exact ih _ hrec
      | inr hns =>
        exact usageOK_effFold_noSetPrompt rest (effStep u (AnthEffect.setCompletion n)) hns
          (by simp [effStep, usageOK])

theorem geminiLoop_clean_shape (rs : List GenaiResp) (h : geminiClean rs = true) :
    ∃ cs, geminiLoop rs IterEnd.done =
      cs ++ [{ text := "", done := true, error := none, usage := none, provider := "" }] := by
  induction rs with
  | nil => exact ⟨[], rfl⟩
  | cons r rest ih =>
    simp only [geminiClean, List.all_cons, Bool.and_eq_true] at h
    obtain ⟨cs, hcs⟩ := ih (by simpa [geminiClean] using h.2)
    cases hc : r.candidates with
    | nil => exact ⟨cs, by simp [geminiLoop, hc, hcs]⟩
    | cons c cands =>
      cases hp : c.parts with
      | nil => exact ⟨cs, by simp [geminiLoop, hc, hp, hcs]⟩
      | cons p ps =>
        cases p with
        | text t =>
          refine ⟨{ text := t } :: cs, ?_⟩
          simp [geminiLoop, hc, hp, hcs]
        | otherPart =>
          exfalso
          have h1 := h.1
          rw [hc] at h1
          simp [hp] at h1

theorem ollamaLoop_text (u : List Char → Option Json) :
    ∀ (lines : List (List Char)) (endr : ReadEnd) (accU : Usage),
      chunkTextJoin (ollamaLoop u lines endr accU) = strConcat (ollamaResponses u lines) := by
  intro lines
  induction lines with
  | nil =>
    intro endr accU
    cases endr with
    | eof => rfl
    | readErr e => simp [ollamaLoop, ollamaResponses, chunkTextJoin, strConcat, mkErrChunk]
  | cons line rest ih =>
    intro endr accU
    simp only [ollamaLoop, ollamaResponses]
    cases hj : u line with
    | none =>
      simp only [hj]
      simp [chunkTextJoin, mkErrChunk, ih endr accU, String.empty_append]
    | some j =>
      simp only [hj]
      cases hr : (j.get "response").bind Json.asStr with
      | none =>
        simp only [hr]
        exact ih endr accU
      | some s =>
        simp only [hr]
        cases hd : ollamaDoneOf j with
        | false =>
          simp [hd, chunkTextJoin, strConcat, ih endr (ollamaUsageOf j)]
        | true =>
          simp [hd, chunkTextJoin, strConcat, String.append_empty]

theorem anthLoopI_text (items : List AnthItem) (endr : ReadEnd) (accT : String) (accU : Usage) :
    nonTerminalTextJoin (anthropicLoopI items endr accT accU) = anthDeltaText items ∧
      ∀ c ∈ anthropicLoopI items endr accT accU, c.done = true →
        c.text = accT ++ anthDeltaText items := by
  induction items generalizing accT accU with
  | nil =>
    cases endr with
    | eof => simp [anthropicLoopI, anthDeltaText, nonTerminalTextJoin]
    | readErr e => simp [anthropicLoopI, anthDeltaText, nonTerminalTextJoin, mkErrChunk]
  | cons i rest ih =>
    cases i with
    | parseFail =>
      obtain ⟨ih1, ih2⟩ := ih accT accU
      refine ⟨?_, ?_⟩
      · simp [anthropicLoopI, nonTerminalTextJoin, anthDeltaText, mkErrChunk, ih1,
          String.empty_append]
      · intro c hc hdone
        simp only [anthropicLoopI, List.mem_cons] at hc
        cases hc with
        | inl he => rw [he] at hdone; simp [mkErrChunk] at hdone
        | inr hm => exact (anthDeltaText.eq_2 rest) ▸ ih2 c hm hdone
    | event j =>
      cases heff : anthEventEffect j with
      | none =>
        obtain ⟨ih1, ih2⟩ := ih accT accU
        refine ⟨?_, ?_⟩
        · simp [anthropicLoopI, heff, anthDeltaText, ih1]
        · intro c hc hdone
          simp only [anthropicLoopI, heff] at hc
          have := ih2 c hc hdone
          simpa [anthDeltaText, heff] using this
      | some eff =>
        cases eff with
        | setPrompt n =>
          obtain ⟨ih1, ih2⟩ := ih accT { accU with promptTokens := n }
          refine ⟨?_, ?_⟩
          · simp [anthropicLoopI, heff, anthDeltaText, ih1]
          · intro c hc hdone
            simp only [anthropicLoopI, heff] at hc
            have := ih2 c hc hdone
            simpa [anthDeltaText, heff] using this
        | emitText s =>
          obtain ⟨ih1, ih2⟩ := ih (accT ++ s) accU
          refine ⟨?_, ?_⟩
          · simp [anthropicLoopI, heff, anthDeltaText, nonTerminalTextJoin, ih1]
          · intro c hc hdone
            simp only [anthropicLoopI, heff, List.mem_cons] at hc
            cases hc with
            | inl he => rw [he] at hdone; simp at hdone
            | inr hm =>
              have := ih2 c hm hdone
              simp [anthDeltaText, heff, this, String.append_assoc]
        | setCompletion n =>
          obtain ⟨ih1, ih2⟩ := ih accT ⟨accU.promptTokens, n, accU.promptTokens + n⟩
          refine ⟨?_, ?_⟩
          · simp [anthropicLoopI, heff, anthDeltaText, ih1]
          · intro c hc hdone
            simp only [anthropicLoopI, heff] at hc
            have := ih2 c hc hdone
            simpa [anthDeltaText, heff] using this
        | stop =>
          refine ⟨?_, ?_⟩
          · simp [anthropicLoopI, heff, anthDeltaText, nonTerminalTextJoin]
          · intro c hc hdone
            simp only [anthropicLoopI, heff, List.mem_cons, List.not_mem_nil, or_false] at hc
            rw [hc]
            simp [anthDeltaText, heff, String.append_empty]

theorem closeAll_spec (ps : List (String × Option CloseableAdapter)) :
    closeAll ps =
      (ps.filterMap (fun x => x.2.map (fun _ => x.1)),
       (ps.filterMap (fun x => x.2.bind (fun a => closeErrMsg x.1 a))).getLast?) := by
  induction ps with
  | nil => rfl
  | cons entry rest ih =>
    obtain ⟨name, adp⟩ := entry
    cases adp with
    | none => simpa [closeAll, List.filterMap_cons] using ih
    | some a =>
      simp only [closeAll, ih, List.filterMap_cons, Option.map_some', Option.some_bind]
      refine Prod.ext rfl ?_
      cases hmsg : closeErrMsg name a with
      | none =>
        simp only [hmsg]
        cases herrs : (rest.filterMap fun x => x.2.bind fun a => closeErrMsg x.1 a).getLast? with
        | none => simp [herrs]
        | some e => simp [herrs]
      | some e0 =>
        simp only [hmsg]
        cases herrs : rest.filterMap fun x => x.2.bind fun a => closeErrMsg x.1 a with
        | nil => simp [herrs]
        | cons x xs =>
          cases hl : (x :: xs).getLast? with
          | none => simp at hl
          | some e => simp [hl, List.getLast?_cons_cons]

theorem ollamaLoop_readErr_last (u : List Char → Option Json) :
    ∀ (lines : List (List Char)) (e : String) (accU : Usage),
      ollamaStops u lines = false →
      ∃ cs, ollamaLoop u lines (ReadEnd.readErr e) accU = cs ++ [mkErrChunk e] := by
  intro lines
  induction lines with
  | nil => exact fun e accU _ => ⟨[], rfl⟩
  | cons line rest ih =>
    intro e accU h
    simp only [ollamaStops] at h
    simp only [ollamaLoop]
    cases hj : u line with
    | none =>
      simp only [hj] at h
      obtain ⟨cs, hcs⟩ := ih e accU h
      refine ⟨mkErrChunk "invalid character in JSON line" :: cs, ?_⟩
      simp [hj, hcs]
    | some j =>
      simp only [hj] at h
      cases hr : (j.get "response").bind Json.asStr with
      | none =>
        simp only [hr] at h
        obtain ⟨cs, hcs⟩ := ih e accU h
        simp [hj, hr, hcs]
      | some sr =>
        simp only [hr] at h
        cases hd : ollamaDoneOf j with
        | true => simp [hd] at h
        | false =>
          simp only [hd, if_neg Bool.false_ne_true] at h
          obtain ⟨cs, hcs⟩ := ih e (ollamaUsageOf j) h
          refine ⟨{ text := sr, done := false, usage := some (ollamaUsageOf j) } :: cs, ?_⟩
          simp [hj, hr, hd, hcs]

/-! ### Claim theorems -/

/-- Claim C1, counterexample: in the Anthropic decode loop a chunk carrying a
parse-failure error is not the last chunk of the stream — after emitting it
the loop continues (`continue`, anthropic.go line 173) and here emits a
further text chunk, refuting "that chunk is the last element of the stream
and decoding stops". -/
theorem c1_error_chunk_not_last :
    anthropicDecode uAnth linesBadThenText ReadEnd.eof =
      [mkErrChunk "invalid character in JSON payload", { text := "Hi" }] ∧
    errorsLastB (anthropicDecode uAnth linesBadThenText ReadEnd.eof) = false := by
  constructor
  · rfl
  · rfl

/-- Claim C1, amended: at most one chunk of a decoded stream has the terminal
flag set and no chunk follows it (Anthropic and Ollama loops); a chunk
carrying a READ-failure error is the last chunk (for the Anthropic loop
whenever no `message_stop` precedes the read error, for the Ollama loop
whenever no `done: true` line precedes it); but a PARSE-failure error
chunk does not terminate either stream — both loops continue with the next
framing unit after emitting it. -/
theorem c1_terminality_amended :
    (∀ (u : List Char → Option Json) (lines : List (List Char)) (endr : ReadEnd),
      doneLastB (anthropicDecode u lines endr) = true) ∧
    (∀ (u : List Char → Option Json) (lines : List (List Char)) (endr : ReadEnd),
      doneLastB (ollamaDecode u lines endr) = true) ∧
    (∀ (items : List AnthItem) (e : String) (accT : String) (accU : Usage),
      anthPreStop items = none →
      ∃ cs, anthropicLoopI items (ReadEnd.readErr e) accT accU = cs ++ [mkErrChunk e]) ∧
    (∀ (items : List AnthItem) (endr : ReadEnd) (accT : String) (accU : Usage),
      anthropicLoopI (AnthItem.parseFail :: items) endr accT accU =
        mkErrChunk "invalid character in JSON payload" :: anthropicLoopI items endr accT accU) ∧
    (∀ (u : List Char → Option Json) (lines : List (List Char)) (e : String) (accU : Usage),
      ollamaStops u lines = false →
      ∃ cs, ollamaLoop u lines (ReadEnd.readErr e) accU = cs ++ [mkErrChunk e]) ∧
    (∀ (u : List Char → Option Json) (line : List Char) (rest : List (List Char))
       (endr : ReadEnd) (accU : Usage),
      u line = none →
      ollamaLoop u (line :: rest) endr accU =
        mkErrChunk "invalid character in JSON line" :: ollamaLoop u rest endr accU) :=
  ⟨fun u lines endr => anthLoopI_doneLast (anthropicItems u lines) endr "" usage0,
   fun u lines endr => ollamaLoop_doneLast u lines endr usage0,
   fun items e accT accU h => anthLoopI_readErr_last items e accT accU h,
   fun _ _ _ _ => rfl,
   fun u lines e accU h => ollamaLoop_readErr_last u lines e accU h,
   fun u line rest endr accU h => by simp [ollamaLoop, h]⟩

/-- Claim C1, witness for the amended statement at concrete streams: the
hypothesis-bearing conjuncts applied to an Anthropic item stream without
`message_stop`, an Ollama body whose only line is malformed, and an Ollama
malformed line followed by a text line. -/
theorem c1_terminality_amended_witness :
    doneLastB (anthropicDecode uAnth linesBadThenText ReadEnd.eof) = true ∧
    (∃ cs, anthropicLoopI [AnthItem.parseFail] (ReadEnd.readErr "network down") "" usage0 =
      cs ++ [mkErrChunk "network down"]) ∧
    (∃ cs, ollamaLoop uAnth ["!".toList] (ReadEnd.readErr "network down") usage0 =
      cs ++ [mkErrChunk "network down"]) ∧
    ollamaLoop uAnth ["!".toList] ReadEnd.eof usage0 =
      mkErrChunk "invalid character in JSON line" :: ollamaLoop uAnth [] ReadEnd.eof usage0 :=
  ⟨c1_terminality_amended.1 uAnth linesBadThenText ReadEnd.eof,
   c1_terminality_amended.2.2.1 [AnthItem.parseFail] "network down" "" usage0 rfl,
   c1_terminality_amended.2.2.2.2.1 uAnth ["!".toList] "network down" usage0 rfl,
   c1_terminality_amended.2.2.2.2.2 uAnth "!".toList [] ReadEnd.eof usage0 rfl⟩

/-- Claim C2, counterexample: two failing instances of the claim.  (1) The
Google Gemini decode loop detects the backend's done signal (iterator
exhaustion) but its final chunk carries NO usage at all
(`StreamingCompletionResponse{Done: true}`).  (2) The Anthropic loop on the
event order `message_delta(output_tokens: 2)`, `message_start(input_tokens: 3)`,
`message_stop` — usage counters only in messages carrying no text — emits a
terminal chunk whose usage is `⟨3, 2, 2⟩`: total 2, not the prompt plus
completion `3 + 2 = 5` accumulated across the stream, because the code
recomputes the total only in the `message_delta` arm (anthropic.go:219).
Both refute "carries the fully accumulated Usage, whose total equals the
prompt plus completion token counts accumulated across the whole stream". -/
theorem c2_terminal_usage_counterexamples :
    geminiLoop [geminiRespHi] IterEnd.done = [{ text := "Hi" }, { done := true }] ∧
    ((geminiLoop [geminiRespHi] IterEnd.done).getLast?.bind
      (fun c => c.usage)) = none ∧
    anthropicDecode uAnth linesDeltaFirst ReadEnd.eof =
      [{ text := "", done := true, usage := some ⟨3, 2, 2⟩ }] ∧
    usageOK ⟨3, 2, 2⟩ = false ∧
    (⟨3, 2, 2⟩ : Usage).totalTokens ≠
      (⟨3, 2, 2⟩ : Usage).promptTokens + (⟨3, 2, 2⟩ : Usage).completionTokens := by
  refine ⟨rfl, rfl, rfl, rfl, ?_⟩
  decide

/-- Claim C2, amended: when the Anthropic loop reaches `message_stop`, the
final chunk has the terminal flag and carries the accumulated usage
(unconditionally), whose total equals prompt plus completion provided some
`message_delta` usage event arrived with no later `message_start` usage
event — the condition the second counterexample forces, since the code
recomputes the total only in the `message_delta` arm, leaving it stale on
other orders; this includes usage delivered only in text-free events.  The
Gemini loop's terminal chunk on iterator exhaustion carries the flag but
NO usage — the restriction the first counterexample forces. -/
theorem c2_terminal_usage_amended :
    (∀ (items : List AnthItem) (endr : ReadEnd) (pre : List AnthItem),
      anthPreStop items = some pre →
      ∃ cs, anthropicLoopI items endr "" usage0 =
        cs ++ [{ text := anthDeltaText pre, done := true,
                 usage := some (effFold (anthEffects pre) usage0) }] ∧
        (endsWithGoodUsage (anthEffects pre) = true →
          usageOK (effFold (anthEffects pre) usage0) = true)) ∧
    (∀ rs : List GenaiResp, geminiClean rs = true →
      ∃ cs, geminiLoop rs IterEnd.done =
        cs ++ [{ text := "", done := true, error := none, usage := none, provider := "" }]) := by
  constructor
  · intro items endr pre h
    obtain ⟨cs, hcs⟩ := anthLoopI_stop_shape items endr "" usage0 pre h
    refine ⟨cs, ?_, fun hg => usageOK_effFold_good (anthEffects pre) usage0 hg⟩
    simpa [String.empty_append] using hcs
  · intro rs h
    exact geminiLoop_clean_shape rs h

/-- Claim C2, witness: the stream `message_start(3)`, delta `"Hi"`,
`message_delta(2)`, `message_stop` — usage arriving only in text-free
events — ends in a terminal chunk with usage total `5 = 3 + 2`. -/
theorem c2_terminal_usage_amended_witness :
    anthPreStop (anthropicItems uAnth linesFull) = some preFull ∧
    (∃ cs, anthropicLoopI (anthropicItems uAnth linesFull) ReadEnd.eof "" usage0 =
      cs ++ [{ text := anthDeltaText preFull, done := true,
               usage := some (effFold (anthEffects preFull) usage0) }] ∧
      (endsWithGoodUsage (anthEffects preFull) = true →
        usageOK (effFold (anthEffects preFull) usage0) = true)) ∧
    effFold (anthEffects preFull) usage0 = ⟨3, 2, 5⟩ ∧
    geminiClean [geminiRespHi] = true ∧
    (∃ cs, geminiLoop [geminiRespHi] IterEnd.done =
      cs ++ [{ text := "", done := true, error := none, usage := none, provider := "" }]) :=
  ⟨rfl,
   c2_terminal_usage_amended.1 (anthropicItems uAnth linesFull) ReadEnd.eof preFull rfl,
   rfl,
   rfl,
   c2_terminal_usage_amended.2 [geminiRespHi] rfl⟩

/-- Claim C3, counterexample: the Anthropic terminal chunk's `Text` is the
whole accumulated text (anthropic.go line 223), so concatenating the `Text`
fields of all emitted chunks yields the backend text twice — `"HiHi"` for a
backend text of `"Hi"` — refuting "concatenating the Text fields of the
emitted chunks in emission order equals the backend's overall generated
text ... no chunk repeating text already emitted". -/
theorem c3_terminal_chunk_repeats_text :
    chunkTextJoin (anthropicDecode uAnth linesHiStop ReadEnd.eof) = "HiHi" ∧
    anthDeltaText (anthropicItems uAnth linesHiStop) = "Hi" ∧
    chunkTextJoin (anthropicDecode uAnth linesHiStop ReadEnd.eof) ≠
      anthDeltaText (anthropicItems uAnth linesHiStop) := by
  refine ⟨rfl, rfl, ?_⟩
  decide

/-- Claim C3, amended: concatenating the `Text` fields of the NON-terminal
chunks in emission order equals the backend's generated text, each delta
contributed exactly once in arrival order; the Anthropic terminal chunk
additionally repeats the full accumulated text as its `Text`.  For the
Ollama loop the concatenation over ALL chunks equals the backend text (its
terminal chunk's text is the final line's own `response` delta, not a
repetition). -/
theorem c3_text_concatenation_amended :
    (∀ (u : List Char → Option Json) (lines : List (List Char)) (endr : ReadEnd),
      nonTerminalTextJoin (anthropicDecode u lines endr) =
        anthDeltaText (anthropicItems u lines)) ∧
    (∀ (u : List Char → Option Json) (lines : List (List Char)) (endr : ReadEnd),
      ∀ c ∈ anthropicDecode u lines endr, c.done = true →
        c.text = anthDeltaText (anthropicItems u lines)) ∧
    (∀ (u : List Char → Option Json) (lines : List (List Char)) (endr : ReadEnd),
      chunkTextJoin (ollamaDecode u lines endr) = strConcat (ollamaResponses u lines)) := by
  refine ⟨?_, ?_, ?_⟩
  · intro u lines endr
    exact (anthLoopI_text (anthropicItems u lines) endr "" usage0).1
  · intro u lines endr c hc hdone
    have := (anthLoopI_text (anthropicItems u lines) endr "" usage0).2 c hc hdone
    simpa [String.empty_append] using this
  · intro u lines endr
    exact ollamaLoop_text u lines endr usage0

/-- Claim C3, witness for the amended statement at concrete streams. -/
theorem c3_text_concatenation_amended_witness :
    nonTerminalTextJoin (anthropicDecode uAnth linesHiStop ReadEnd.eof) =
      anthDeltaText (anthropicItems uAnth linesHiStop) ∧
    ({ text := "Hi", done := true, usage := some usage0 } :
      StreamingCompletionResponse).text = anthDeltaText (anthropicItems uAnth linesHiStop) ∧
    chunkTextJoin (ollamaDecode uAnth [] ReadEnd.eof) = strConcat (ollamaResponses uAnth []) :=
  ⟨c3_text_concatenation_amended.1 uAnth linesHiStop ReadEnd.eof,
   c3_text_concatenation_amended.2.1 uAnth linesHiStop ReadEnd.eof
     { text := "Hi", done := true, usage := some usage0 } (by decide) rfl,
   c3_text_concatenation_amended.2.2 uAnth [] ReadEnd.eof⟩

/-- Claim C4: a single resolution of an unregistered provider name with its
credential present does NOT return the adapter — it deadlocks.
`initializeProvider` holds `c.mu` for its whole body (client.go line 344)
and, after inserting the newly constructed adapter, calls
`setDefaultProviderIfEmpty` (line 389) which takes `c.mu.Lock()` again;
Go's `sync.RWMutex` is not reentrant, so the goroutine blocks forever.
The theorem evaluates the model at the failing input: empty registry,
`OLLAMA_BASE_URL` set, name `"ollama"`. -/
theorem c4_lazy_initialize_deadlocks :
    initializeProvider {} envOllama "ollama" =
      (Res.deadlock,
       { providers := [("ollama", ProviderA.ollama "http://localhost:11434")],
         defaultProvider := "", muHeld := true }) := by
  rfl

/-- Claim C5: splitting a `"provider/model"` identifier yields exactly the
substrings before and after the first `/`; an identifier with no `/` makes
`parseProviderModel` fail with the malformed-identifier error, and both
dispatch entry points return that error with the registry state untouched
and the adapter behaviour never consulted (the result is independent of
`gen` / `streamFn`, and no provider is resolved or constructed). -/
theorem c5_parse_and_malformed_dispatch :
    (∀ (pre post : List Char), (pre.all fun c => c != '/') = true →
      parseProviderModel (String.mk (pre ++ '/' :: post)) =
        Except.ok (String.mk pre, String.mk post)) ∧
    (∀ s : String, (s.toList.all fun c => c != '/') = true →
      parseProviderModel s = Except.error "invalid provider/model format") ∧
    (∀ (gen : ProviderA → String → CompletionInput → Except String String)
       (st : ClientState) (env : List (String × String)) (input : CompletionInput),
      (input.model.toList.all fun c => c != '/') = true →
      generateCompletion gen st env input =
        (Res.err "failed to parse provider/model: invalid provider/model format", st)) ∧
    (∀ (streamFn : ProviderA → String → CompletionInput →
        Except String (List StreamingCompletionResponse))
       (st : ClientState) (env : List (String × String)) (input : CompletionInput),
      (input.model.toList.all fun c => c != '/') = true →
      generateCompletionStream streamFn st env input =
        (Res.err "invalid provider/model format", st)) := by
  refine ⟨?_, ?_, ?_, ?_⟩
  · intro pre post h
    simp [parseProviderModel, splitFirst_sep pre post h]
  · intro s h
    have h2 : splitFirst '/' s.data = none := splitFirst_none s.toList h
    simp [parseProviderModel, h2]
  · intro gen st env input h
    have h2 : splitFirst '/' input.model.data = none := splitFirst_none input.model.toList h
    simp [generateCompletion, parseProviderModel, h2]
  · intro streamFn st env input h
    have h2 : splitFirst '/' input.model.data = none := splitFirst_none input.model.toList h
    simp [generateCompletionStream, parseProviderModel, h2]

/-- Claim C5, witness: `"openai/gpt-4"` splits into `("openai", "gpt-4")`;
`"gpt-4"` (no slash) makes both dispatch calls fail without touching the
registry. -/
theorem c5_parse_and_malformed_dispatch_witness :
    parseProviderModel "openai/gpt-4" = Except.ok ("openai", "gpt-4") ∧
    parseProviderModel "gpt-4" = Except.error "invalid provider/model format" ∧
    generateCompletion (fun _ _ _ => Except.ok "unused") {} envOllama { model := "gpt-4" } =
      (Res.err "failed to parse provider/model: invalid provider/model format", {}) ∧
    generateCompletionStream (fun _ _ _ => Except.ok []) {} envOllama { model := "gpt-4" } =
      (Res.err "invalid provider/model format", {}) := by
  refine ⟨?_, ?_, ?_, ?_⟩
  · have h := c5_parse_and_malformed_dispatch.1 "openai".toList "gpt-4".toList (by decide)
    simpa using h
  · exact c5_parse_and_malformed_dispatch.2.1 "gpt-4" (by decide)
  · exact c5_parse_and_malformed_dispatch.2.2.1 (fun _ _ _ => Except.ok "unused") {} envOllama
      { model := "gpt-4" } (by decide)
  · exact c5_parse_and_malformed_dispatch.2.2.2 (fun _ _ _ => Except.ok []) {} envOllama
      { model := "gpt-4" } (by decide)

/-- Claim C6: when the backend answers a streaming call with a non-success
HTTP status, the call itself returns the backend error (carrying the
status) synchronously — `Except.error`, so no chunk sequence ever exists
for that call — for both the OpenAI and the Anthropic adapters. -/
theorem c6_non_success_status_no_chunks
    (u : List Char → Option Json) (resp : HttpResponse) (h : resp.statusCode ≠ 200) :
    openaiGenerateCompletionStream u resp =
      Except.error ("API request failed with status code: " ++ toString resp.statusCode) ∧
    anthropicGenerateCompletionStream u resp =
      Except.error ("API request failed with status code: " ++ toString resp.statusCode) := by
  constructor
  · simp [openaiGenerateCompletionStream, if_pos h]
  · simp [anthropicGenerateCompletionStream, if_pos h]

/-- Claim C6, witness at a concrete 404 response with a non-empty body. -/
theorem c6_non_success_status_no_chunks_witness :
    openaiGenerateCompletionStream uOai ⟨404, linesOaiGemini, ReadEnd.eof⟩ =
      Except.error "API request failed with status code: 404" ∧
    anthropicGenerateCompletionStream uOai ⟨404, linesOaiGemini, ReadEnd.eof⟩ =
      Except.error "API request failed with status code: 404" :=
  c6_non_success_status_no_chunks uOai ⟨404, linesOaiGemini, ReadEnd.eof⟩ (by decide)

/-- Claim C7: the OpenAI adapter's running usage accumulator IS overwritten
from Gemini-schema fields.  Evaluating the decode loop at an SSE event that
carries `choices[0].delta.content` together with a `usageMetadata` object
(`promptTokenCount` 7, `candidatesTokenCount` 5, `totalTokenCount` 12 — the
Google Gemini payload schema, openai.go lines 293-304) shows the chunk and
the subsequent `[DONE]` terminal chunk both carrying usage `⟨7, 5, 12⟩`
taken from those foreign fields, contradicting the spec's requirement that
each adapter's accumulator update be scoped to its own payload schema. -/
theorem c7_openai_accumulator_overwritten_from_gemini_schema :
    openaiDecode uOai linesOaiGemini ReadEnd.eof =
      [{ text := "hi", usage := some ⟨7, 5, 12⟩ },
       { done := true, usage := some ⟨7, 5, 12⟩ }] ∧
    openaiUsageFromGeminiMeta [("promptTokenCount", Json.num 7),
                               ("candidatesTokenCount", Json.num 5),
                               ("totalTokenCount", Json.num 12)] = ⟨7, 5, 12⟩ := by
  constructor
  · rfl
  · rfl

/-- Claim C8: with the provider already registered, the chunk sequence the
dispatcher's `GenerateCompletionStream` hands back is exactly the adapter's
emitted sequence — the forwarding goroutine copies every chunk unchanged in
order — and the registry state is untouched. -/
theorem c8_dispatcher_stream_passthrough
    (streamFn : ProviderA → String → CompletionInput →
      Except String (List StreamingCompletionResponse))
    (st : ClientState) (env : List (String × String)) (input : CompletionInput)
    (providerName modelName : String) (p : ProviderA)
    (chunks : List StreamingCompletionResponse)
    (hparse : parseProviderModel input.model = Except.ok (providerName, modelName))
    (hmu : st.muHeld = false)
    (hreg : lookupProvider st.providers providerName = some p)
    (hstream : streamFn p modelName input = Except.ok chunks) :
    generateCompletionStream streamFn st env input = (Res.ok chunks, st) := by
  simp [generateCompletionStream, hparse, initializeProvider_hit st env providerName p hmu hreg,
    hstream, debugForward_id]

/-- Claim C8, witness: a registered Anthropic adapter whose stream is two
chunks is handed back exactly those two chunks. -/
theorem c8_dispatcher_stream_passthrough_witness :
    generateCompletionStream
      (fun _ _ _ => Except.ok [{ text := "Hi" }, { done := true }])
      { providers := [("anthropic", ProviderA.anthropic "k")], defaultProvider := "anthropic",
        muHeld := false }
      [] { model := "anthropic/claude-3" } =
      (Res.ok [{ text := "Hi" }, { done := true }],
       { providers := [("anthropic", ProviderA.anthropic "k")], defaultProvider := "anthropic",
         muHeld := false }) :=
  c8_dispatcher_stream_passthrough
    (fun _ _ _ => Except.ok [{ text := "Hi" }, { done := true }])
    { providers := [("anthropic", ProviderA.anthropic "k")], defaultProvider := "anthropic",
      muHeld := false }
    [] { model := "anthropic/claude-3" } "anthropic" "claude-3" (ProviderA.anthropic "k")
    [{ text := "Hi" }, { done := true }] (by rfl) rfl (by rfl) rfl

/-- Claim C9: `Close` invokes `Close()` exactly once on every non-nil
registered adapter — in registry order, a failing close never preventing
the rest — and returns the LAST non-nil close error collected (`nil` when
every close succeeds, since then the collected-error list is empty and its
last element is `none`). -/
theorem c9_close_all_once_and_last_error (ps : List (String × Option CloseableAdapter)) :
    closeAll ps =
      (ps.filterMap (fun x => x.2.map (fun _ => x.1)),
       (ps.filterMap (fun x => x.2.bind (fun a => closeErrMsg x.1 a))).getLast?) :=
  closeAll_spec ps

/-- Claim C10: the Ollama and Gemini request builders read
`Messages[len(Messages)-1]` unguarded, so they complete exactly when the
message list is non-empty: on an empty list the access is out of bounds
(`none` models the Go panic) before any backend request exists, and a
non-empty `Messages` list is the unstated precondition. -/
theorem c10_last_message_precondition (modelName : String) (input : CompletionInput) :
    (ollamaGenRequest modelName input).isSome = !input.messages.isEmpty ∧
    (ollamaStreamRequest modelName input).isSome = !input.messages.isEmpty ∧
    (geminiGenPrompt input).isSome = !input.messages.isEmpty ∧
    (geminiStreamPrompt input).isSome = !input.messages.isEmpty := by
  refine ⟨?_, ?_, ?_, ?_⟩ <;>
    simp [ollamaGenRequest, ollamaStreamRequest, geminiGenPrompt, geminiStreamPrompt,
      Option.isSome_map, lastMessage_isSome]
